import Mathlib

/-!
Verification of the build-automation utilities in this repository
(`build/generate_ptx.py` and `build/limit_cu_files.py`) against their
natural-language specification.

The Python code is shallowly embedded: pure computations become Lean
functions, the process-global flag state of the run controller becomes
explicit state threading, and interactions with external collaborators
(filesystem, child processes, the standard-library random module, the
interactive prompt) become explicit parameters or effect traces.  Print
statements, which carry no program state, are elided throughout.
-/

/-! ## Configuration constants (generate_ptx.py, lines 19-53) -/

def BUILD_DIR : String := "/home/ubuntu/anjiang/PTX_dataset/cutlass_ptx/build"

def INPUT_DIR : String := BUILD_DIR ++ "/tools/library/generated/gemm"

def OUTPUT_DIR : String := BUILD_DIR ++ "/tools/library/generated_ptx/gemm"

def NVCC : String := "/usr/local/cuda/bin/nvcc"

/-- The process-wide base flag list `CUDA_FLAGS` (generate_ptx.py lines 26-43). -/
def CUDA_FLAGS : List String := [
  "-DCUTLASS_VERSIONS_GENERATED",
  "-O3",
  "-DNDEBUG",
  "-std=c++17",
  "--generate-code=arch=compute_80,code=sm_80",
  "-Xcompiler=-fPIC",
  "-DCUTLASS_ENABLE_TENSOR_CORE_MMA=1",
  "-DCUTLASS_ENABLE_GDC_FOR_SM100=1",
  "--expt-relaxed-constexpr",
  "-ftemplate-backtrace-limit=0",
  "-DCUTLASS_TEST_LEVEL=0",
  "-DCUTLASS_TEST_ENABLE_CACHED_RESULTS=1",
  "-DCUTLASS_CONV_UNIT_TEST_RIGOROUS_SIZE_ENABLED=1",
  "-DCUTLASS_DEBUG_TRACE_LEVEL=0",
  "-Xcompiler=-Wconversion",
  "-Xcompiler=-fno-strict-aliasing"]

/-- `Path(INPUT_DIR).parts`: the component decomposition of the input root,
as produced by Python's pathlib (leading "/" is its own component). -/
def INPUT_DIR_PARTS : List String :=
  ["/", "home", "ubuntu", "anjiang", "PTX_dataset", "cutlass_ptx", "build",
   "tools", "library", "generated", "gemm"]

/-- Per-invocation wall-clock timeout in seconds (generate_ptx.py line 96). -/
def TIMEOUT_SECONDS : Nat := 300

/-- The hardcoded enumeration behind `--arch all` (generate_ptx.py line 312). -/
def ALL_ARCHITECTURES : List String := ["50", "60", "61", "70", "75", "80"]

/-! ## Python string replace (`str.replace`)

`relative_path.replace('.cu', '.ptx')` (generate_ptx.py line 82) replaces every
non-overlapping occurrence of the pattern, scanning left to right.  We embed it
as a fuel-indexed structural recursion over the character list so that concrete
instances reduce inside the kernel; fuel equal to the length of the scanned
list is always sufficient because each step consumes at least one character.
The embedding is faithful for non-empty patterns (the only pattern the source
uses is ".cu"). -/

/-- Embedding of Python `str.strip()`: drop whitespace from both ends. -/
def py_strip (s : String) : String :=
  ⟨((s.data.dropWhile Char.isWhitespace).reverse.dropWhile Char.isWhitespace).reverse⟩

/-- Embedding of Python `str.lower()`. -/
def py_lower (s : String) : String :=
  ⟨s.data.map Char.toLower⟩

/-- Embedding of Python `str.startswith`. -/
def py_startswith (pre s : String) : Bool :=
  pre.data.isPrefixOf s.data

def replaceListAux (pat rep : List Char) : Nat → List Char → List Char
  | _, [] => []
  | 0, s => s
  | fuel + 1, c :: rest =>
    if pat ≠ [] ∧ pat.isPrefixOf (c :: rest) then
      rep ++ replaceListAux pat rep fuel ((c :: rest).drop pat.length)
    else
      c :: replaceListAux pat rep fuel rest

/-- Embedding of Python `s.replace(pat, rep)` for non-empty `pat`. -/
def pyReplace (s pat rep : String) : String :=
  ⟨replaceListAux pat.data rep.data s.data.length s.data⟩

/-! ## Output-path derivation (generate_ptx.py lines 67-82)

A filesystem path is modelled by its pathlib component list (`Path.parts`).
`cu_path.relative_to(INPUT_DIR)` succeeds exactly when the root's components
are a component-wise prefix; its string form joins the remaining components
with "/" (and is "." when nothing remains).  On `ValueError` the code falls
back to the last two components joined with "/", or the bare filename when
the path has a single component. -/

def relative_path_of (parts : List String) : String :=
  if INPUT_DIR_PARTS.isPrefixOf parts then
    match parts.drop INPUT_DIR_PARTS.length with
    | [] => "."
    | rest => String.intercalate "/" rest
  else if 2 ≤ parts.length then
    String.intercalate "/" (parts.drop (parts.length - 2))
  else
    (parts.getLast?).getD ""

/-- `Path(root) / rel` following pathlib's join rules: a bare "." appends
nothing, and an absolute right operand (one starting with "/") discards the
left operand entirely.  The absolute case is reachable here: the fallback
relative path of a root-level unit such as `/a.cu` is `"/".join(('/', 'a.cu'))
= "//a.cu"`, which starts with "/". -/
def path_join (root rel : String) : String :=
  if rel = "." then root
  else if py_startswith "/" rel then rel
  else root ++ "/" ++ rel

/-- The output file computed at generate_ptx.py line 82:
`Path(OUTPUT_DIR) / relative_path.replace('.cu', '.ptx')`. -/
def output_file_of (parts : List String) : String :=
  path_join OUTPUT_DIR (pyReplace (relative_path_of parts) ".cu" ".ptx")

/-! ## Single-unit invocation outcome (generate_ptx.py lines 92-118) -/

/-- What the child-process invocation at line 92 did: ran to completion with an
exit code and captured stderr, exceeded the timeout (`subprocess.TimeoutExpired`),
or raised some other exception (e.g. a process-launch failure). -/
inductive ExecOutcome where
  | completed (returncode : Int) (stderr : String)
  | timedOut
  | raised (msg : String)
deriving DecidableEq

/-- Modelled from the spec: `subprocess.run(..., timeout=300)` is external
library code; per the spec it raises the timeout exception exactly when the
invocation's wall-clock time exceeds the fixed 300-second timeout, and
otherwise reports the child's exit status and captured stderr. -/
def subprocess_outcome (elapsed : Nat) (returncode : Int) (stderr : String) : ExecOutcome :=
  if TIMEOUT_SECONDS < elapsed then .timedOut else .completed returncode stderr

/-- The value returned by `generate_ptx_single` — the Python triple
`(success, relative_path, error_message)` — as a function of the relative
path already computed and of what the child-process invocation did
(generate_ptx.py lines 99-118). -/
def generate_ptx_single_result (relative_path : String) (outcome : ExecOutcome) :
    Bool × String × String :=
  match outcome with
  | .completed rc stderr =>
    if rc = 0 then (true, relative_path, "") else (false, relative_path, py_strip stderr)
  | .timedOut => (false, relative_path, "Compilation timeout")
  | .raised msg => (false, relative_path, msg)

/-- The four classification tags of a compile result; the spec's
`CompileResult` tag set. -/
inductive OutcomeTag where
  | success
  | failure
  | timeout
  | exception
deriving DecidableEq

/-- Which of the four labelled return branches of `generate_ptx_single`
executes (lines 99-102 success, 103-109 failure, 111-114 timeout,
115-118 exception). -/
def classify_outcome : ExecOutcome → OutcomeTag
  | .completed rc _ => if rc = 0 then .success else .failure
  | .timedOut => .timeout
  | .raised _ => .exception

/-! ## Architecture flag resolver (generate_ptx.py lines 240-248) -/

/-- The default code-generation entry; line 245 tests `flag.startswith` of
exactly this string. -/
def GEN_CODE_SM80 : String := "--generate-code=arch=compute_80,code=sm_80"

/-- The architecture-parameterized replacement entry built at line 246. -/
def arch_code_flag (arch : String) : String :=
  "--generate-code=arch=compute_" ++ arch ++ ",code=sm_" ++ arch

/-- The matching test of line 245. -/
def is_gen_code_flag (flag : String) : Bool :=
  py_startswith GEN_CODE_SM80 flag

/-- The loop of lines 244-247: replace the first matching entry (the loop
breaks after one substitution), leave everything else unchanged. -/
def replace_gen_code (arch : String) : List String → List String
  | [] => []
  | flag :: rest =>
    if is_gen_code_flag flag then arch_code_flag arch :: rest
    else flag :: replace_gen_code arch rest

/-- `get_cuda_flags_for_arch`, parameterized by the current process-wide flag
list that the Python function reads through the `CUDA_FLAGS` global (it copies
the list and never mutates the base). -/
def get_cuda_flags_for_arch (base : List String) (arch : String) : List String :=
  replace_gen_code arch base

/-! ## Batch driver (generate_ptx.py lines 129-238)

The per-unit invocation is abstracted as a function `run` from a file and its
1-based job id to the `generate_ptx_single` triple; the Python function always
returns exactly one such triple per unit (it catches every exception
internally).  Discovery (`find_cu_files`) is filesystem traversal, so the
drivers are modelled over the discovered list directly. -/

/-- One step of the serial accumulation loop (lines 145-150): bump the success
count on success, otherwise append `(relative_path, error)` to the failure
list. -/
def tally_step (run : String → Nat → Bool × String × String)
    (acc : Nat × List (String × String)) (ic : Nat × String) :
    Nat × List (String × String) :=
  let r := run ic.2 ic.1
  if r.1 then (acc.1 + 1, acc.2) else (acc.1, acc.2 ++ [(r.2.1, r.2.2)])

/-- `process_directory_serial` (lines 129-166): iterate the discovered list in
order with 1-based indices, then return
`(success_count, total_count - success_count)`. -/
def process_directory_serial (cu_files : List String)
    (run : String → Nat → Bool × String × String) : Nat × Nat :=
  let total_count := cu_files.length
  if total_count = 0 then (0, 0)
  else
    let final := (List.enumFrom 1 cu_files).foldl (tally_step run) (0, [])
    (final.1, total_count - final.1)

/-- `process_directory_parallel` (lines 168-238): every enumerated unit is
submitted to the pool and results are consumed in completion order — an
arbitrary permutation `completion_order` of the enumerated submission list.
The aggregation per completed future (lines 203-211) is the same tally as the
serial loop, and the function returns
`(success_count, total_count - success_count)`. -/
def process_directory_parallel (cu_files : List String)
    (run : String → Nat → Bool × String × String)
    (completion_order : List (Nat × String)) : Nat × Nat :=
  let total_count := cu_files.length
  if total_count = 0 then (0, 0)
  else
    let final := completion_order.foldl (tally_step run) (0, [])
    (final.1, total_count - final.1)

/-! ## Run controller (generate_ptx.py lines 250-366)

The controller is embedded as a state-threading loop.  External state is a
small filesystem view; the dispatched batch is an oracle that either returns
`(success, failed)` counts together with the effects it performed, or raises.
The observable behaviour is collected in `MainOut`: the exit disposition
(`Except.error ()` models an exception propagating out of `main`), the trace
of filesystem/process effects, the dry-run reports, the batch dispatches with
the flag list active during each, the final process-wide flag list, and the
accumulated totals. -/

/-- A syscall-level effect: directory creation (`os.makedirs` /
`Path.mkdir`), child-process invocation, file deletion (`Path.unlink`), or
directory removal (`Path.rmdir`). -/
inductive Effect where
  | mkdir (path : String)
  | spawn (file : String)
  | unlink (path : String)
  | rmdir (path : String)
deriving DecidableEq

/-- The command-line arguments of generate_ptx.py (lines 264-273). -/
structure GenArgs where
  parallel : Bool
  arch : String
  verbose : Bool
  dry_run : Bool

/-- The filesystem as seen by `main`: existence of the compiler executable and
of the root input directory, and, per architecture token, the discovered
`.cu` list of `INPUT_DIR/<arch>` (`none` when that subdirectory is missing). -/
structure GenFS where
  nvcc_exists : Bool
  input_dir_exists : Bool
  arch_dirs : String → Option (List String)

/-- The dispatched batch for one architecture: given the architecture and the
flag list active during the batch, either counts plus performed effects, or a
raised exception. -/
abbrev BatchFn := String → List String → Except Unit (Nat × Nat × List Effect)

/-- State threaded through the architecture loop of lines 320-353. -/
structure LoopState where
  flags : List String
  effects : List Effect
  dry_reports : List (String × Nat)
  batch_calls : List (String × List String)
  totals : Nat × Nat

/-- The `for arch in architectures` loop (lines 320-353): skip a missing
architecture directory; in dry-run mode only report the discovered count;
otherwise swap in the architecture-specific flags when `arch != '80'`,
dispatch the batch, and restore the original flags in a `finally` block on
both the normal and the raising path (a raise aborts the whole loop).  The
second component records whether an exception propagated. -/
def arch_loop (args : GenArgs) (fs : GenFS) (batch : BatchFn) :
    List String → LoopState → LoopState × Bool
  | [], st => (st, false)
  | arch :: rest, st =>
    match fs.arch_dirs arch with
    | none => arch_loop args fs batch rest st
    | some cu_files =>
      if args.dry_run then
        arch_loop args fs batch rest
          { st with dry_reports := st.dry_reports ++ [(arch, cu_files.length)] }
      else
        let active := if arch ≠ "80" then get_cuda_flags_for_arch st.flags arch else st.flags
        let restored := if arch ≠ "80" then st.flags else active
        match batch arch active with
        | .ok (s, f, effs) =>
          arch_loop args fs batch rest
            { flags := restored
              effects := st.effects ++ effs
              dry_reports := st.dry_reports
              batch_calls := st.batch_calls ++ [(arch, active)]
              totals := (st.totals.1 + s, st.totals.2 + f) }
        | .error _ =>
          ({ st with flags := restored, batch_calls := st.batch_calls ++ [(arch, active)] }, true)

/-- The observable behaviour of one run of generate_ptx.py `main`. -/
structure MainOut where
  exit : Except Unit Int
  effects : List Effect
  dry_reports : List (String × Nat)
  batch_calls : List (String × List String)
  final_flags : List String
  totals : Nat × Nat

/-- `main` of generate_ptx.py (lines 250-366): precondition checks on the
compiler executable and the input root (exit 1 before anything else), the
unconditional `os.makedirs(OUTPUT_DIR, exist_ok=True)` of line 308, resolution
of the architecture list, the architecture loop, and exit 0 on normal
completion. -/
def main_generate (args : GenArgs) (fs : GenFS) (batch : BatchFn)
    (base : List String) : MainOut :=
  if fs.nvcc_exists = false then ⟨.ok 1, [], [], [], base, (0, 0)⟩
  else if fs.input_dir_exists = false then ⟨.ok 1, [], [], [], base, (0, 0)⟩
  else
    let archs := if args.arch = "all" then ALL_ARCHITECTURES else [args.arch]
    let st0 : LoopState := ⟨base, [Effect.mkdir OUTPUT_DIR], [], [], (0, 0)⟩
    let res := arch_loop args fs batch archs st0
    ⟨if res.2 then Except.error () else Except.ok 0,
     res.1.effects, res.1.dry_reports, res.1.batch_calls, res.1.flags, res.1.totals⟩

/-! ## Pruning utility (limit_cu_files.py) -/

/-- The command-line arguments of limit_cu_files.py (lines 38-47). -/
structure LimitArgs where
  directory : Option String
  limit : Nat
  seed : Option Int
  dry_run : Bool
  verbose : Bool

/-- The filesystem as seen by the pruning utility: target-directory checks and
the recursively discovered `.cu` list in enumeration order. -/
structure LimitFS where
  dir_exists : Bool
  is_dir : Bool
  files : List String

/-- External collaborators of limit_cu_files.py, as deterministic parameters.
Modelled from the spec where the collaborator is library code outside this
repository: `seeded s` is Python's `random.sample` after `random.seed(s)` — a
deterministic function of the seed and its arguments, shared by every run of
the same interpreter — while `unseeded` is `random.sample` without seeding
(ambient entropy, allowed to differ between runs).  `response` is the
interactive `input()` answer (line 125), `unlink_fail` says which deletions
raise (line 147), `empty_dirs` lists the directories found empty by the
bottom-up cleanup walk (lines 158-171), and `rescan` is the re-discovered
file count of the final verification (line 189). -/
structure LimitEnv where
  seeded : Int → List String → Nat → List String
  unseeded : List String → Nat → List String
  response : String
  unlink_fail : String → Bool
  empty_dirs : List String
  rescan : Nat

/-- The observable behaviour of one run of limit_cu_files.py `main`. -/
structure LimitOut where
  exit : Int
  effects : List Effect
  prompted : Bool
  found : Nat
  files_to_remove : List String

/-- `main` of limit_cu_files.py (lines 24-198): directory checks (exit 1),
discovery, the early exit of lines 86-89 when the count is within the limit,
seeded or unseeded sampling of the keep-set (lines 91-95), the dry-run exit
(lines 118-121), the confirmation prompt (lines 124-129), deletion with
per-file failure collection, empty-directory cleanup, and the final recount
verification (exit 1 when it exceeds the limit). -/
def limit_main (args : LimitArgs) (fs : LimitFS) (env : LimitEnv) : LimitOut :=
  if fs.dir_exists = false then ⟨1, [], false, 0, []⟩
  else if fs.is_dir = false then ⟨1, [], false, 0, []⟩
  else
    let cu_files := fs.files
    let total_files := cu_files.length
    if total_files ≤ args.limit then ⟨0, [], false, total_files, []⟩
    else
      let files_to_keep :=
        match args.seed with
        | some s => env.seeded s cu_files args.limit
        | none => env.unseeded cu_files args.limit
      let files_to_remove := cu_files.filter (fun f => !(files_to_keep.contains f))
      if args.dry_run then ⟨0, [], false, total_files, files_to_remove⟩
      else if py_lower (py_strip env.response) ≠ "y" ∧ py_lower (py_strip env.response) ≠ "yes" then
        ⟨0, [], true, total_files, files_to_remove⟩
      else
        let removed := files_to_remove.filter (fun f => env.unlink_fail f = false)
        let effects := removed.map Effect.unlink ++ env.empty_dirs.map Effect.rmdir
        ⟨if env.rescan ≤ args.limit then 0 else 1, effects, true, total_files, files_to_remove⟩

/-! ## Helper lemmas -/

/-- The first component of the tally fold counts the successful units. -/
theorem tally_foldl_fst (run : String → Nat → Bool × String × String) :
    ∀ (l : List (Nat × String)) (acc : Nat × List (String × String)),
    (l.foldl (tally_step run) acc).1
      = acc.1 + l.countP (fun ic => (run ic.2 ic.1).1) := by
  intro l
  induction l with
  | nil => intro acc; simp
  | cons ic l ih =>
    intro acc
    rw [List.foldl_cons, ih, List.countP_cons]
    simp only [tally_step]
    cases h : (run ic.2 ic.1).1
    · simp [h]
    · simp [h]
      omega

/-- C1: for every non-empty discovered unit list and per-unit invocation
returning exactly one result per unit, both the serial and the parallel batch
driver return a pair with `success_count + failed_count` equal to the total
number of discovered units (the parallel driver consuming results in an
arbitrary completion order). -/
theorem c1_count_conservation (cu_files : List String)
    (run : String → Nat → Bool × String × String)
    (completion_order : List (Nat × String))
    (hne : cu_files ≠ [])
    (hperm : completion_order.Perm (List.enumFrom 1 cu_files)) :
    (process_directory_serial cu_files run).1
      + (process_directory_serial cu_files run).2 = cu_files.length
    ∧ (process_directory_parallel cu_files run completion_order).1
      + (process_directory_parallel cu_files run completion_order).2
        = cu_files.length := by
  have hlen0 : ¬ cu_files.length = 0 := by
    intro h
    exact hne (List.length_eq_zero.mp h)
  have hsle : (List.enumFrom 1 cu_files).countP (fun ic => (run ic.2 ic.1).1)
      ≤ cu_files.length := by
    calc (List.enumFrom 1 cu_files).countP (fun ic => (run ic.2 ic.1).1)
        ≤ (List.enumFrom 1 cu_files).length := List.countP_le_length _
      _ = cu_files.length := by simp [List.enumFrom_length]
  constructor
  · simp only [process_directory_serial, if_neg hlen0]
    rw [tally_foldl_fst]
    omega
  · simp only [process_directory_parallel, if_neg hlen0]
    rw [tally_foldl_fst]
    have hpc := hperm.countP_eq (fun ic => (run ic.2 ic.1).1)
    omega

/-- Witness for C1 at a concrete two-element list with one success and one
failure, the parallel completion order reversed. -/
theorem c1_count_conservation_witness :
    (process_directory_serial ["a.cu", "b.cu"] (fun f _ => (f == "a.cu", f, ""))).1
      + (process_directory_serial ["a.cu", "b.cu"] (fun f _ => (f == "a.cu", f, ""))).2
        = (["a.cu", "b.cu"] : List String).length
    ∧ (process_directory_parallel ["a.cu", "b.cu"] (fun f _ => (f == "a.cu", f, ""))
        [(2, "b.cu"), (1, "a.cu")]).1
      + (process_directory_parallel ["a.cu", "b.cu"] (fun f _ => (f == "a.cu", f, ""))
          [(2, "b.cu"), (1, "a.cu")]).2
        = (["a.cu", "b.cu"] : List String).length :=
  c1_count_conservation ["a.cu", "b.cu"] (fun f _ => (f == "a.cu", f, ""))
    [(2, "b.cu"), (1, "a.cu")] (by decide) (by decide)

/-- C2: with a deterministic per-filename outcome function standing in for
the external compiler, the parallel driver returns the same
`(success_count, failed_count)` pair as the serial driver, for every
completion order of the parallel results. -/
theorem c2_serial_parallel_agree (cu_files : List String)
    (stub : String → Bool × String × String)
    (completion_order : List (Nat × String))
    (hperm : completion_order.Perm (List.enumFrom 1 cu_files)) :
    process_directory_parallel cu_files (fun f _ => stub f) completion_order
      = process_directory_serial cu_files (fun f _ => stub f) := by
  by_cases h0 : cu_files.length = 0
  · simp [process_directory_parallel, process_directory_serial, h0]
  · simp only [process_directory_parallel, process_directory_serial, if_neg h0]
    rw [tally_foldl_fst, tally_foldl_fst, hperm.countP_eq]

/-- Witness for C2 at a concrete list and reversed completion order. -/
theorem c2_serial_parallel_agree_witness :
    process_directory_parallel ["a.cu", "b.cu"] (fun f _ => (f == "a.cu", f, "e"))
        [(2, "b.cu"), (1, "a.cu")]
      = process_directory_serial ["a.cu", "b.cu"] (fun f _ => (f == "a.cu", f, "e")) :=
  c2_serial_parallel_agree ["a.cu", "b.cu"] (fun f => (f == "a.cu", f, "e"))
    [(2, "b.cu"), (1, "a.cu")] (by decide)

/-- C3: an invocation exceeding the 300-second timeout executes the dedicated
timeout branch of `generate_ptx_single`: the result carries the fixed
"Compilation timeout" diagnostic, its classification tag is `timeout`, which
is distinct from the `failure` tag that a nonzero exit produces. -/
theorem c3_timeout_classified (elapsed : Nat) (rc : Int) (stderr : String)
    (h : TIMEOUT_SECONDS < elapsed) :
    classify_outcome (subprocess_outcome elapsed rc stderr) = OutcomeTag.timeout
    ∧ OutcomeTag.timeout ≠ OutcomeTag.failure
    ∧ (∀ rel, generate_ptx_single_result rel (subprocess_outcome elapsed rc stderr)
        = (false, rel, "Compilation timeout"))
    ∧ (∀ rc' stderr', rc' ≠ 0 →
        classify_outcome (.completed rc' stderr') = OutcomeTag.failure) := by
  have hto : subprocess_outcome elapsed rc stderr = .timedOut := by
    simp [subprocess_outcome, h]
  refine ⟨by rw [hto]; rfl, by simp, fun rel => by rw [hto]; rfl,
    fun rc' stderr' h' => by simp [classify_outcome, h']⟩

/-- Witness for C3 at a 301-second invocation. -/
theorem c3_timeout_classified_witness :
    classify_outcome (subprocess_outcome 301 1 "boom") = OutcomeTag.timeout
    ∧ OutcomeTag.timeout ≠ OutcomeTag.failure
    ∧ (∀ rel, generate_ptx_single_result rel (subprocess_outcome 301 1 "boom")
        = (false, rel, "Compilation timeout"))
    ∧ (∀ rc' stderr', rc' ≠ 0 →
        classify_outcome (.completed rc' stderr') = OutcomeTag.failure) :=
  c3_timeout_classified 301 1 "boom" (by decide)

/-- The substitution loop preserves the length of the flag list. -/
theorem replace_gen_code_length (arch : String) :
    ∀ l : List String, (replace_gen_code arch l).length = l.length := by
  intro l
  induction l with
  | nil => rfl
  | cons f rest ih =>
    cases hb : is_gen_code_flag f <;> simp [replace_gen_code, hb, ih]

/-- With no matching entry the substitution loop is the identity. -/
theorem replace_gen_code_no_match (arch : String) :
    ∀ l : List String, l.countP is_gen_code_flag = 0 → replace_gen_code arch l = l := by
  intro l
  induction l with
  | nil => intro _; rfl
  | cons f rest ih =>
    intro h
    rw [List.countP_cons] at h
    cases hb : is_gen_code_flag f
    · rw [hb] at h
      simp only [Bool.false_eq_true, if_false, Nat.add_zero] at h
      simp [replace_gen_code, hb, ih h]
    · rw [hb] at h
      simp only [eq_self_iff_true, if_true] at h
      omega

/-- With exactly one matching entry the loop rewrites that entry to the
architecture-parameterized flag and leaves every other position unchanged. -/
theorem replace_gen_code_one_match (arch : String) :
    ∀ l : List String, l.countP is_gen_code_flag = 1 →
    ∃ i, i < l.length ∧ is_gen_code_flag (l.getD i "") = true ∧
      (replace_gen_code arch l).getD i "" = arch_code_flag arch ∧
      ∀ j, j ≠ i → (replace_gen_code arch l).getD j "" = l.getD j "" := by
  intro l
  induction l with
  | nil => intro h; simp at h
  | cons f rest ih =>
    intro h
    rw [List.countP_cons] at h
    cases hb : is_gen_code_flag f
    · rw [hb] at h
      simp at h
      obtain ⟨i, hi, hmatch, hset, hrest⟩ := ih h
      have hcons : replace_gen_code arch (f :: rest) = f :: replace_gen_code arch rest := by
        simp [replace_gen_code, hb]
      refine ⟨i + 1, by simp; omega, by simpa using hmatch, by rw [hcons]; simpa using hset, ?_⟩
      intro j hj
      cases j with
      | zero => simp [hcons]
      | succ k =>
        have hk : k ≠ i := by omega
        rw [hcons]
        simpa using hrest k hk
    · have hcons : replace_gen_code arch (f :: rest) = arch_code_flag arch :: rest := by
        simp [replace_gen_code, hb]
      refine ⟨0, by simp, by simpa using hb, by simp [hcons], ?_⟩
      intro j hj
      cases j with
      | zero => exact absurd rfl hj
      | succ k => simp [hcons]

/-- C5: on a base flag list with exactly one code-generation entry, resolving
for architecture "75" keeps the length, rewrites exactly that entry to the
flag encoding compute_75 and sm_75, and changes nothing else; on a base list
with no matching entry the base list is returned unmodified. -/
theorem c5_arch_flag_resolver (base : List String) :
    ((base.countP is_gen_code_flag = 1) →
      (get_cuda_flags_for_arch base "75").length = base.length ∧
      ∃ i, i < base.length ∧ is_gen_code_flag (base.getD i "") = true ∧
        (get_cuda_flags_for_arch base "75").getD i ""
          = "--generate-code=arch=compute_75,code=sm_75" ∧
        ∀ j, j ≠ i → (get_cuda_flags_for_arch base "75").getD j "" = base.getD j "")
    ∧ ((base.countP is_gen_code_flag = 0) →
        get_cuda_flags_for_arch base "75" = base) := by
  constructor
  · intro h
    refine ⟨replace_gen_code_length "75" base, ?_⟩
    obtain ⟨i, hi, hm, hs, hr⟩ := replace_gen_code_one_match "75" base h
    have harch : arch_code_flag "75" = "--generate-code=arch=compute_75,code=sm_75" := by
      decide
    exact ⟨i, hi, hm, by rw [← harch]; exact hs, hr⟩
  · intro h
    exact replace_gen_code_no_match "75" base h

/-- Witness for C5: the repository's own base flag list has exactly one
code-generation entry; a list without one is returned unchanged. -/
theorem c5_arch_flag_resolver_witness :
    ((get_cuda_flags_for_arch CUDA_FLAGS "75").length = CUDA_FLAGS.length ∧
      ∃ i, i < CUDA_FLAGS.length ∧ is_gen_code_flag (CUDA_FLAGS.getD i "") = true ∧
        (get_cuda_flags_for_arch CUDA_FLAGS "75").getD i ""
          = "--generate-code=arch=compute_75,code=sm_75" ∧
        ∀ j, j ≠ i →
          (get_cuda_flags_for_arch CUDA_FLAGS "75").getD j "" = CUDA_FLAGS.getD j "")
    ∧ get_cuda_flags_for_arch ["-O3"] "75" = ["-O3"] :=
  ⟨(c5_arch_flag_resolver CUDA_FLAGS).1 (by decide),
   (c5_arch_flag_resolver ["-O3"]).2 (by decide)⟩

/-- `isPrefixOf` is reflexive on char lists. -/
theorem isPrefixOf_same (l : List Char) : l.isPrefixOf l = true := by
  induction l with
  | nil => rfl
  | cons c rest ih => simp [List.isPrefixOf, ih]

/-- When the pattern occurs in `stem ++ pat` only as the trailing copy, the
left-to-right replacement scan rewrites exactly that copy. -/
theorem replaceListAux_tail (pat rep : List Char) (hpat : pat ≠ []) :
    ∀ (stem : List Char) (fuel : Nat), (stem ++ pat).length ≤ fuel →
    (∀ i, i < stem.length → pat.isPrefixOf ((stem ++ pat).drop i) = false) →
    replaceListAux pat rep fuel (stem ++ pat) = stem ++ rep := by
  intro stem
  induction stem with
  | nil =>
    intro fuel hfuel hno
    cases hp : pat with
    | nil => exact absurd hp hpat
    | cons p ps =>
      subst hp
      cases fuel with
      | zero => simp at hfuel
      | succ f =>
        simp only [List.nil_append]
        simp only [replaceListAux]
        rw [if_pos ⟨List.cons_ne_nil p ps, isPrefixOf_same (p :: ps)⟩]
        rw [List.drop_length]
        simp [replaceListAux]
  | cons c stem' ih =>
    intro fuel hfuel hno
    cases fuel with
    | zero =>
      simp at hfuel
    | succ f =>
      simp only [List.cons_append] at hfuel hno ⊢
      simp only [replaceListAux]
      have h0 : pat.isPrefixOf (c :: (stem' ++ pat)) = false := by
        have := hno 0 (by simp)
        simpa using this
      rw [if_neg (fun hcontra => by rw [hcontra.2] at h0; exact Bool.noConfusion h0)]
      have harg : (stem' ++ pat).length ≤ f := by
        simp only [List.length_cons] at hfuel
        simp only [List.length_append] at hfuel ⊢
        omega
      have hno' : ∀ i, i < stem'.length → pat.isPrefixOf ((stem' ++ pat).drop i) = false := by
        intro i hi
        have := hno (i + 1) (by simp only [List.length_cons]; omega)
        simpa [List.drop_succ_cons] using this
      rw [ih f harg hno']

/-- Replacing ".cu" by ".ptx" in a string that ends in ".cu" and contains no
other occurrence of ".cu" substitutes exactly the trailing extension. -/
theorem pyReplace_extension_sub (stem : String)
    (hno : ∀ i, i < stem.data.length →
      (".cu".data.isPrefixOf ((stem ++ ".cu").data.drop i)) = false) :
    pyReplace (stem ++ ".cu") ".cu" ".ptx" = stem ++ ".ptx" := by
  have hdata : (stem ++ ".cu").data = stem.data ++ ".cu".data :=
    String.data_append stem ".cu"
  have hno' : ∀ i, i < stem.data.length →
      (".cu".data.isPrefixOf ((stem.data ++ ".cu".data).drop i)) = false := by
    intro i hi
    have := hno i hi
    rwa [hdata] at this
  show String.mk (replaceListAux ".cu".data ".ptx".data (stem ++ ".cu").data.length
    (stem ++ ".cu").data) = stem ++ ".ptx"
  rw [hdata]
  rw [replaceListAux_tail ".cu".data ".ptx".data (by decide) stem.data
    (stem.data ++ ".cu".data).length le_rfl hno']
  have hptx : (stem ++ ".ptx").data = stem.data ++ ".ptx".data :=
    String.data_append stem ".ptx"
  rw [← hptx]

/-- A string ending in ".ptx" is not the one-character string ".". -/
theorem append_ptx_ne_dot (stem : String) : stem ++ ".ptx" ≠ "." := by
  intro hcontra
  have hd := congrArg String.data hcontra
  rw [String.data_append] at hd
  have hlen := congrArg List.length hd
  rw [List.length_append] at hlen
  have h4 : (".ptx".data).length = 4 := by decide
  have h1 : (".".data).length = 1 := by decide
  omega

/-- Appending ".ptx" neither creates nor destroys a leading "/". -/
theorem startswith_slash_append (stem : String) :
    py_startswith "/" (stem ++ ".ptx") = py_startswith "/" stem := by
  show ("/".data).isPrefixOf (stem ++ ".ptx").data = ("/".data).isPrefixOf stem.data
  rw [String.data_append]
  cases h : stem.data with
  | nil => decide
  | cons c cs => simp [List.isPrefixOf]

/-- C8 counterexample: for the unit `INPUT_DIR/80/x.cuda.cu` the code's
`str.replace('.cu', '.ptx')` rewrites the interior occurrence of ".cu" inside
".cuda" as well, producing `.../80/x.ptxda.ptx` instead of the
extension-substituted `.../80/x.cuda.ptx` that the claim predicts. -/
theorem c8_output_path_counterexample :
    output_file_of (INPUT_DIR_PARTS ++ ["80", "x.cuda.cu"])
      = OUTPUT_DIR ++ "/" ++ "80/x.ptxda.ptx"
    ∧ OUTPUT_DIR ++ "/" ++ "80/x.ptxda.ptx" ≠ OUTPUT_DIR ++ "/" ++ "80/x.cuda.ptx" := by
  constructor
  · decide
  · decide

/-- C8 (amended): the output path is obtained by replacing every occurrence
of ".cu" in the relative path with ".ptx" and joining under the output root
with pathlib's rules.  When ".cu" occurs only as the trailing extension and
the relative path is not absolute, this coincides with extension substitution
under the output root, preserving the relative directory structure; when the
relative path is absolute — as with the root-level fallback, whose joined
last-two-components path starts with "/" — the pathlib join discards the
output root and the output escapes it entirely.  The fallback relative path
for units outside the input root is as claimed: the last two path components
joined, or the bare filename for a single-component path. -/
theorem c8_output_path_amended :
    (∀ (parts : List String) (stem : String),
      relative_path_of parts = stem ++ ".cu" →
      (∀ i, i < stem.data.length →
        (".cu".data.isPrefixOf ((stem ++ ".cu").data.drop i)) = false) →
      py_startswith "/" stem = false →
      output_file_of parts = OUTPUT_DIR ++ "/" ++ (stem ++ ".ptx"))
    ∧ (∀ (parts : List String) (stem : String),
      relative_path_of parts = stem ++ ".cu" →
      (∀ i, i < stem.data.length →
        (".cu".data.isPrefixOf ((stem ++ ".cu").data.drop i)) = false) →
      py_startswith "/" stem = true →
      output_file_of parts = stem ++ ".ptx")
    ∧ (∀ (ps : List String) (a b : String),
        INPUT_DIR_PARTS.isPrefixOf (ps ++ [a, b]) = false →
        relative_path_of (ps ++ [a, b]) = String.intercalate "/" [a, b])
    ∧ (∀ a : String, INPUT_DIR_PARTS.isPrefixOf [a] = false →
        relative_path_of [a] = a) := by
  refine ⟨?_, ?_, ?_, ?_⟩
  · intro parts stem hrel hno hroot
    show path_join OUTPUT_DIR (pyReplace (relative_path_of parts) ".cu" ".ptx")
      = OUTPUT_DIR ++ "/" ++ (stem ++ ".ptx")
    rw [hrel, pyReplace_extension_sub stem hno]
    unfold path_join
    rw [if_neg (append_ptx_ne_dot stem), startswith_slash_append, hroot]
    simp
  · intro parts stem hrel hno hroot
    show path_join OUTPUT_DIR (pyReplace (relative_path_of parts) ".cu" ".ptx")
      = stem ++ ".ptx"
    rw [hrel, pyReplace_extension_sub stem hno]
    unfold path_join
    rw [if_neg (append_ptx_ne_dot stem), startswith_slash_append, hroot]
    simp
  · intro ps a b hnp
    have hlen : 2 ≤ (ps ++ [a, b]).length := by simp
    have hsub : (ps ++ [a, b]).length - 2 = ps.length := by simp
    simp only [relative_path_of, hnp, Bool.false_eq_true, if_false, if_pos hlen, hsub,
      List.drop_left]
  · intro a h
    simp [relative_path_of, h]

/-- Witness for C8 (amended) at a clean unit under the root, at the
root-level unit `/a.cu` whose output escapes the output root, and at two
fallback paths outside the root. -/
theorem c8_output_path_amended_witness :
    output_file_of (INPUT_DIR_PARTS ++ ["80", "plain.cu"])
      = OUTPUT_DIR ++ "/" ++ ("80/plain" ++ ".ptx")
    ∧ output_file_of ["/", "a.cu"] = "//a" ++ ".ptx"
    ∧ relative_path_of (["/", "etc"] ++ ["sub", "a.cu"])
        = String.intercalate "/" ["sub", "a.cu"]
    ∧ relative_path_of ["a.cu"] = "a.cu" :=
  ⟨c8_output_path_amended.1 (INPUT_DIR_PARTS ++ ["80", "plain.cu"]) "80/plain"
      (by decide) (by decide) (by decide),
   c8_output_path_amended.2.1 ["/", "a.cu"] "//a" (by decide) (by decide) (by decide),
   c8_output_path_amended.2.2.1 ["/", "etc"] "sub" "a.cu" (by decide),
   c8_output_path_amended.2.2.2 "a.cu" (by decide)⟩

/-- The architecture loop leaves the process-wide flag list exactly as it
found it, on every path including the raising one. -/
theorem arch_loop_flags (args : GenArgs) (fs : GenFS) (batch : BatchFn) :
    ∀ (archs : List String) (st : LoopState),
    (arch_loop args fs batch archs st).1.flags = st.flags := by
  intro archs
  induction archs with
  | nil => intro st; rfl
  | cons arch rest ih =>
    intro st
    cases harch : fs.arch_dirs arch with
    | none =>
      simp only [arch_loop, harch]
      exact ih st
    | some cu_files =>
      simp only [arch_loop, harch]
      split
      · exact ih _
      · split
        · rw [ih _]
          by_cases h80 : arch = "80" <;> simp [h80]
        · by_cases h80 : arch = "80" <;> simp [h80]

/-- Every batch dispatch performed by the architecture loop receives the flag
list derived from the loop's entry flags: the architecture-specific
substitution when the architecture is not the baked-in default, the entry
flags themselves otherwise. -/
theorem arch_loop_calls (args : GenArgs) (fs : GenFS) (batch : BatchFn) :
    ∀ (archs : List String) (st : LoopState),
    ∀ c ∈ (arch_loop args fs batch archs st).1.batch_calls,
      c ∈ st.batch_calls ∨
        c.2 = (if c.1 ≠ "80" then get_cuda_flags_for_arch st.flags c.1 else st.flags) := by
  intro archs
  induction archs with
  | nil => intro st c hc; exact Or.inl hc
  | cons arch rest ih =>
    intro st c hc
    revert hc
    cases harch : fs.arch_dirs arch with
    | none =>
      simp only [arch_loop, harch]
      exact ih st c
    | some cu_files =>
      simp only [arch_loop, harch]
      split
      · exact ih _ c
      · split
        · intro hc
          rcases ih _ c hc with hmem | hprop
          · rcases List.mem_append.mp hmem with h | h
            · exact Or.inl h
            · right
              have hp : c = (arch,
                  if arch ≠ "80" then get_cuda_flags_for_arch st.flags arch else st.flags) := by
                simpa using h
              rw [hp]
          · right
            by_cases h80 : arch = "80" <;> simpa [h80] using hprop
        · intro hc
          rcases List.mem_append.mp hc with h | h
          · exact Or.inl h
          · right
            have hp : c = (arch,
                if arch ≠ "80" then get_cuda_flags_for_arch st.flags arch else st.flags) := by
              simpa using h
            rw [hp]

/-- C6: after any run of the controller, the process-wide flag list is
restored byte-for-byte to the original baseline — also when the batch raised
mid-way — and every batch (in particular any subsequent architecture's)
was dispatched with the flag list derived from that same baseline. -/
theorem c6_flag_restore (args : GenArgs) (fs : GenFS) (batch : BatchFn)
    (base : List String) :
    (main_generate args fs batch base).final_flags = base ∧
    ∀ c ∈ (main_generate args fs batch base).batch_calls,
      c.2 = (if c.1 ≠ "80" then get_cuda_flags_for_arch base c.1 else base) := by
  unfold main_generate
  by_cases h1 : fs.nvcc_exists = false
  · rw [if_pos h1]
    exact ⟨rfl, fun c hc => by simp at hc⟩
  · rw [if_neg h1]
    by_cases h2 : fs.input_dir_exists = false
    · rw [if_pos h2]
      exact ⟨rfl, fun c hc => by simp at hc⟩
    · rw [if_neg h2]
      constructor
      · exact arch_loop_flags args fs batch _ _
      · intro c hc
        rcases arch_loop_calls args fs batch _ _ c hc with hmem | hprop
        · simp at hmem
        · exact hprop

/-- Witness for C6: a run on architecture "75" whose batch raises; the final
flag list is the baseline and the one dispatched batch received the
75-substituted derivation of the baseline. -/
theorem c6_flag_restore_witness :
    (main_generate ⟨false, "75", false, false⟩
        ⟨true, true, fun a => if a = "75" then some ["k.cu"] else none⟩
        (fun _ _ => Except.error ()) CUDA_FLAGS).final_flags = CUDA_FLAGS
    ∧ (("75", get_cuda_flags_for_arch CUDA_FLAGS "75") : String × List String).2
        = (if ("75" : String) ≠ "80" then get_cuda_flags_for_arch CUDA_FLAGS "75"
           else CUDA_FLAGS) :=
  ⟨(c6_flag_restore ⟨false, "75", false, false⟩
      ⟨true, true, fun a => if a = "75" then some ["k.cu"] else none⟩
      (fun _ _ => Except.error ()) CUDA_FLAGS).1,
   (c6_flag_restore ⟨false, "75", false, false⟩
      ⟨true, true, fun a => if a = "75" then some ["k.cu"] else none⟩
      (fun _ _ => Except.error ()) CUDA_FLAGS).2
     ("75", get_cuda_flags_for_arch CUDA_FLAGS "75") (by decide)⟩

/-- When every dispatched batch returns normally, the architecture loop never
raises. -/
theorem arch_loop_no_raise (args : GenArgs) (fs : GenFS) (batch : BatchFn)
    (hok : ∀ a fl, ∃ v, batch a fl = Except.ok v) :
    ∀ (archs : List String) (st : LoopState),
    (arch_loop args fs batch archs st).2 = false := by
  intro archs
  induction archs with
  | nil => intro st; rfl
  | cons arch rest ih =>
    intro st
    cases harch : fs.arch_dirs arch with
    | none =>
      simp only [arch_loop, harch]
      exact ih st
    | some cu_files =>
      simp only [arch_loop, harch]
      split
      · exact ih _
      · split
        · exact ih _
        · rename_i e heq
          obtain ⟨v, hv⟩ := hok arch _
          rw [hv] at heq
          exact Except.noConfusion heq

/-- C7: with a missing compiler executable or missing input root the driver
exits with code 1 having performed no effects, dispatched no batch, and
without consulting any architecture directory (its behaviour is independent
of the directory contents); with both preconditions satisfied and every
batch returning normally — individual units may well have failed — it exits
with code 0. -/
theorem c7_exit_codes (args : GenArgs) (fs : GenFS) (batch : BatchFn)
    (base : List String) :
    ((fs.nvcc_exists = false ∨ fs.input_dir_exists = false) →
      (main_generate args fs batch base).exit = Except.ok 1
      ∧ (main_generate args fs batch base).effects = []
      ∧ (main_generate args fs batch base).batch_calls = []
      ∧ ∀ d₁ d₂ : String → Option (List String),
          main_generate args { fs with arch_dirs := d₁ } batch base
            = main_generate args { fs with arch_dirs := d₂ } batch base)
    ∧ (fs.nvcc_exists = true → fs.input_dir_exists = true →
        (∀ a fl, ∃ v, batch a fl = Except.ok v) →
        (main_generate args fs batch base).exit = Except.ok 0) := by
  constructor
  · intro hpre
    rcases hpre with h | h
    · refine ⟨?_, ?_, ?_, ?_⟩ <;> simp [main_generate, h]
    · by_cases hnv : fs.nvcc_exists = false
      · refine ⟨?_, ?_, ?_, ?_⟩ <;> simp [main_generate, h, hnv]
      · refine ⟨?_, ?_, ?_, ?_⟩ <;> simp [main_generate, h, hnv]
  · intro hnv hin hok
    have hq := arch_loop_no_raise args fs batch hok
      (if args.arch = "all" then ALL_ARCHITECTURES else [args.arch])
      ⟨base, [Effect.mkdir OUTPUT_DIR], [], [], (0, 0)⟩
    simp only [main_generate, hnv, hin, Bool.true_eq_false, if_false, hq]
    simp

/-- Witness for C7: a missing executable exits 1 with an empty trace; a run
whose single batch reports five failed units exits 0. -/
theorem c7_exit_codes_witness :
    ((main_generate ⟨false, "80", false, false⟩
        ⟨false, true, fun _ => none⟩ (fun _ _ => Except.ok (0, 0, [])) []).exit
          = Except.ok 1
      ∧ (main_generate ⟨false, "80", false, false⟩
          ⟨false, true, fun _ => none⟩ (fun _ _ => Except.ok (0, 0, [])) []).effects = []
      ∧ (main_generate ⟨false, "80", false, false⟩
          ⟨false, true, fun _ => none⟩ (fun _ _ => Except.ok (0, 0, [])) []).batch_calls = []
      ∧ ∀ d₁ d₂ : String → Option (List String),
          main_generate ⟨false, "80", false, false⟩
              { (⟨false, true, fun _ => none⟩ : GenFS) with arch_dirs := d₁ }
              (fun _ _ => Except.ok (0, 0, [])) []
            = main_generate ⟨false, "80", false, false⟩
              { (⟨false, true, fun _ => none⟩ : GenFS) with arch_dirs := d₂ }
              (fun _ _ => Except.ok (0, 0, [])) [])
    ∧ (main_generate ⟨false, "80", false, false⟩
        ⟨true, true, fun a => if a = "80" then some ["k.cu"] else none⟩
        (fun _ _ => Except.ok (1, 5, [])) CUDA_FLAGS).exit = Except.ok 0 :=
  ⟨(c7_exit_codes ⟨false, "80", false, false⟩ ⟨false, true, fun _ => none⟩
      (fun _ _ => Except.ok (0, 0, [])) []).1 (Or.inl rfl),
   (c7_exit_codes ⟨false, "80", false, false⟩
      ⟨true, true, fun a => if a = "80" then some ["k.cu"] else none⟩
      (fun _ _ => Except.ok (1, 5, [])) CUDA_FLAGS).2 rfl rfl
     (fun _ _ => ⟨(1, 5, []), rfl⟩)⟩

/-- In dry-run mode the architecture loop performs no effects, dispatches no
batch, never raises, and every report it appends pairs an architecture with
the length of that architecture's discovered list. -/
theorem arch_loop_dry (args : GenArgs) (fs : GenFS) (batch : BatchFn)
    (hdry : args.dry_run = true) :
    ∀ (archs : List String) (st : LoopState),
    (arch_loop args fs batch archs st).1.effects = st.effects
    ∧ (arch_loop args fs batch archs st).1.batch_calls = st.batch_calls
    ∧ (arch_loop args fs batch archs st).2 = false
    ∧ ∀ p ∈ (arch_loop args fs batch archs st).1.dry_reports,
        p ∈ st.dry_reports ∨ ∃ fl, fs.arch_dirs p.1 = some fl ∧ p.2 = fl.length := by
  intro archs
  induction archs with
  | nil => intro st; exact ⟨rfl, rfl, rfl, fun p hp => Or.inl hp⟩
  | cons arch rest ih =>
    intro st
    cases harch : fs.arch_dirs arch with
    | none =>
      simp only [arch_loop, harch]
      exact ih st
    | some cu_files =>
      simp only [arch_loop, harch, hdry, eq_self_iff_true, if_true]
      obtain ⟨h1, h2, h3, h4⟩ :=
        ih { st with dry_reports := st.dry_reports ++ [(arch, cu_files.length)] }
      refine ⟨h1, h2, h3, ?_⟩
      intro p hp
      rcases h4 p hp with hmem | hex
      · rcases List.mem_append.mp hmem with h | h
        · exact Or.inl h
        · have hp' : p = (arch, cu_files.length) := by simpa using h
          subst hp'
          exact Or.inr ⟨cu_files, harch, rfl⟩
      · exact Or.inr hex

/-- C4 counterexample: with dry-run set and both preconditions satisfied, the
compilation driver's effect trace is not empty — it still contains the
unconditional creation of the output root directory
(`os.makedirs(OUTPUT_DIR, exist_ok=True)`, generate_ptx.py line 308, executed
before the dry-run check of line 328), so on a filesystem where the output
root is absent a directory is created, contradicting "zero filesystem
mutations (no directory creation)". -/
theorem c4_dry_counterexample :
    (main_generate ⟨false, "80", false, true⟩
        ⟨true, true, fun a => if a = "80" then some ["k.cu"] else none⟩
        (fun _ _ => Except.ok (0, 0, [])) CUDA_FLAGS).effects
      = [Effect.mkdir OUTPUT_DIR]
    ∧ (main_generate ⟨false, "80", false, true⟩
        ⟨true, true, fun a => if a = "80" then some ["k.cu"] else none⟩
        (fun _ _ => Except.ok (0, 0, [])) CUDA_FLAGS).effects ≠ []
    ∧ (main_generate ⟨false, "80", false, true⟩
        ⟨true, true, fun a => if a = "80" then some ["k.cu"] else none⟩
        (fun _ _ => Except.ok (0, 0, [])) CUDA_FLAGS).dry_reports = [("80", 1)] := by
  refine ⟨by decide, by decide, by decide⟩

/-- C4 (amended): with dry-run set the compilation driver spawns no external
process (no batch is dispatched), creates no file and deletes nothing — the
only effect it may perform is the unconditional, idempotent creation of the
output root directory — and the counts it reports are the accurate discovered
counts; the pruning utility with dry-run performs no effects at all, prompts
for nothing, and reports the accurate discovered count. -/
theorem c4_dry_amended (args : GenArgs) (fs : GenFS) (batch : BatchFn)
    (base : List String) (largs : LimitArgs) (lfs : LimitFS) (lenv : LimitEnv)
    (hdry : args.dry_run = true) (hldry : largs.dry_run = true) :
    (∀ e ∈ (main_generate args fs batch base).effects, e = Effect.mkdir OUTPUT_DIR)
    ∧ (main_generate args fs batch base).batch_calls = []
    ∧ (∀ p ∈ (main_generate args fs batch base).dry_reports,
        ∃ fl, fs.arch_dirs p.1 = some fl ∧ p.2 = fl.length)
    ∧ (lfs.dir_exists = true → lfs.is_dir = true →
        (limit_main largs lfs lenv).effects = []
        ∧ (limit_main largs lfs lenv).prompted = false
        ∧ (limit_main largs lfs lenv).found = lfs.files.length) := by
  have hgen : (∀ e ∈ (main_generate args fs batch base).effects,
        e = Effect.mkdir OUTPUT_DIR)
      ∧ (main_generate args fs batch base).batch_calls = []
      ∧ (∀ p ∈ (main_generate args fs batch base).dry_reports,
          ∃ fl, fs.arch_dirs p.1 = some fl ∧ p.2 = fl.length) := by
    unfold main_generate
    by_cases h1 : fs.nvcc_exists = false
    · rw [if_pos h1]
      exact ⟨fun e he => by simp at he, rfl, fun p hp => by simp at hp⟩
    · rw [if_neg h1]
      by_cases h2 : fs.input_dir_exists = false
      · rw [if_pos h2]
        exact ⟨fun e he => by simp at he, rfl, fun p hp => by simp at hp⟩
      · rw [if_neg h2]
        obtain ⟨he, hc, _, hr⟩ := arch_loop_dry args fs batch hdry
          (if args.arch = "all" then ALL_ARCHITECTURES else [args.arch])
          ⟨base, [Effect.mkdir OUTPUT_DIR], [], [], (0, 0)⟩
        refine ⟨?_, hc, ?_⟩
        · intro e hee
          have hee' : e ∈ (arch_loop args fs batch
              (if args.arch = "all" then ALL_ARCHITECTURES else [args.arch])
              ⟨base, [Effect.mkdir OUTPUT_DIR], [], [], (0, 0)⟩).1.effects := hee
          rw [he] at hee'
          simpa using hee'
        · intro p hp
          have hp' : p ∈ (arch_loop args fs batch
              (if args.arch = "all" then ALL_ARCHITECTURES else [args.arch])
              ⟨base, [Effect.mkdir OUTPUT_DIR], [], [], (0, 0)⟩).1.dry_reports := hp
          rcases hr p hp' with hmem | hex
          · simp at hmem
          · exact hex
  refine ⟨hgen.1, hgen.2.1, hgen.2.2, ?_⟩
  intro hd hisd
  by_cases hle : lfs.files.length ≤ largs.limit
  · refine ⟨?_, ?_, ?_⟩ <;> simp [limit_main, hd, hisd, hldry, hle]
  · refine ⟨?_, ?_, ?_⟩ <;> simp [limit_main, hd, hisd, hldry, hle]

/-- Witness for C4 (amended) on concrete dry runs of both tools. -/
theorem c4_dry_amended_witness :
    (∀ e ∈ (main_generate ⟨false, "80", false, true⟩
        ⟨true, true, fun a => if a = "80" then some ["k.cu"] else none⟩
        (fun _ _ => Except.ok (0, 0, [])) []).effects, e = Effect.mkdir OUTPUT_DIR)
    ∧ (main_generate ⟨false, "80", false, true⟩
        ⟨true, true, fun a => if a = "80" then some ["k.cu"] else none⟩
        (fun _ _ => Except.ok (0, 0, [])) []).batch_calls = []
    ∧ (∀ p ∈ (main_generate ⟨false, "80", false, true⟩
        ⟨true, true, fun a => if a = "80" then some ["k.cu"] else none⟩
        (fun _ _ => Except.ok (0, 0, [])) []).dry_reports,
        ∃ fl, (if p.1 = "80" then some ["k.cu"] else none) = some fl ∧ p.2 = fl.length)
    ∧ ((true : Bool) = true → (true : Bool) = true →
        (limit_main ⟨none, 1, some 42, true, false⟩ ⟨true, true, ["a.cu", "b.cu"]⟩
          ⟨fun _ l n => l.take n, fun l _ => l, "y", fun _ => false, [], 0⟩).effects = []
        ∧ (limit_main ⟨none, 1, some 42, true, false⟩ ⟨true, true, ["a.cu", "b.cu"]⟩
            ⟨fun _ l n => l.take n, fun l _ => l, "y", fun _ => false, [], 0⟩).prompted
              = false
        ∧ (limit_main ⟨none, 1, some 42, true, false⟩ ⟨true, true, ["a.cu", "b.cu"]⟩
            ⟨fun _ l n => l.take n, fun l _ => l, "y", fun _ => false, [], 0⟩).found
              = (["a.cu", "b.cu"] : List String).length) :=
  c4_dry_amended ⟨false, "80", false, true⟩
    ⟨true, true, fun a => if a = "80" then some ["k.cu"] else none⟩
    (fun _ _ => Except.ok (0, 0, [])) [] ⟨none, 1, some 42, true, false⟩
    ⟨true, true, ["a.cu", "b.cu"]⟩
    ⟨fun _ l n => l.take n, fun l _ => l, "y", fun _ => false, [], 0⟩ rfl rfl

/-- C9: with a seed supplied, the set of files the pruning utility selects
for removal is a function of the seed, the discovered file list and the
retention limit alone — two runs sharing those three (and the interpreter's
deterministic seeded sampler) select the identical removal list, whatever
their other flags, ambient entropy, or interactive input. -/
theorem c9_seeded_removal_deterministic (a1 a2 : LimitArgs) (fs : LimitFS)
    (env1 env2 : LimitEnv) (s : Int)
    (h1 : a1.seed = some s) (h2 : a2.seed = some s)
    (hl : a1.limit = a2.limit)
    (henv : env1.seeded = env2.seeded)
    (hover : a2.limit < fs.files.length) :
    (limit_main a1 fs env1).files_to_remove
      = (limit_main a2 fs env2).files_to_remove := by
  unfold limit_main
  by_cases hde : fs.dir_exists = false
  · rw [if_pos hde, if_pos hde]
  · rw [if_neg hde, if_neg hde]
    by_cases hid : fs.is_dir = false
    · rw [if_pos hid, if_pos hid]
    · rw [if_neg hid, if_neg hid]
      rw [h1, h2, hl, henv]
      rw [if_neg (by omega : ¬ fs.files.length ≤ a2.limit),
        if_neg (by omega : ¬ fs.files.length ≤ a2.limit)]
      split_ifs <;> rfl

/-- Witness for C9: two runs with seed 42 and limit 1 over the same
two-element list, differing in every other argument, ambient sampler,
response and filesystem oracle, select the same removal list. -/
theorem c9_seeded_removal_deterministic_witness :
    (limit_main ⟨none, 1, some 42, false, false⟩ ⟨true, true, ["a.cu", "b.cu"]⟩
        ⟨fun _ l n => l.take n, fun l _ => l, "n", fun _ => false, [], 0⟩).files_to_remove
      = (limit_main ⟨some "d", 1, some 42, true, true⟩ ⟨true, true, ["a.cu", "b.cu"]⟩
          ⟨fun _ l n => l.take n, fun _ _ => [], "y", fun _ => true, ["d"],
            5⟩).files_to_remove :=
  c9_seeded_removal_deterministic ⟨none, 1, some 42, false, false⟩
    ⟨some "d", 1, some 42, true, true⟩ ⟨true, true, ["a.cu", "b.cu"]⟩
    ⟨fun _ l n => l.take n, fun l _ => l, "n", fun _ => false, [], 0⟩
    ⟨fun _ l n => l.take n, fun _ _ => [], "y", fun _ => true, ["d"], 5⟩
    42 rfl rfl rfl rfl (by decide)

/-- C10: when the discovered count is within the retention limit the pruning
utility deletes nothing, prompts for no confirmation, selects nothing for
removal, and exits with code 0 (limit_cu_files.py lines 86-89). -/
theorem c10_under_limit_noop (args : LimitArgs) (fs : LimitFS) (env : LimitEnv)
    (hd : fs.dir_exists = true) (hi : fs.is_dir = true)
    (hle : fs.files.length ≤ args.limit) :
    (limit_main args fs env).exit = 0
    ∧ (limit_main args fs env).effects = []
    ∧ (limit_main args fs env).prompted = false
    ∧ (limit_main args fs env).files_to_remove = [] := by
  refine ⟨?_, ?_, ?_, ?_⟩ <;> simp [limit_main, hd, hi, hle]

/-- Witness for C10 at a one-file directory with limit 5. -/
theorem c10_under_limit_noop_witness :
    (limit_main ⟨none, 5, none, false, false⟩ ⟨true, true, ["a.cu"]⟩
        ⟨fun _ l n => l.take n, fun l _ => l, "y", fun _ => false, [], 0⟩).exit = 0
    ∧ (limit_main ⟨none, 5, none, false, false⟩ ⟨true, true, ["a.cu"]⟩
        ⟨fun _ l n => l.take n, fun l _ => l, "y", fun _ => false, [], 0⟩).effects = []
    ∧ (limit_main ⟨none, 5, none, false, false⟩ ⟨true, true, ["a.cu"]⟩
        ⟨fun _ l n => l.take n, fun l _ => l, "y", fun _ => false, [], 0⟩).prompted = false
    ∧ (limit_main ⟨none, 5, none, false, false⟩ ⟨true, true, ["a.cu"]⟩
        ⟨fun _ l n => l.take n, fun l _ => l, "y", fun _ => false,
          [], 0⟩).files_to_remove = [] :=
  c10_under_limit_noop ⟨none, 5, none, false, false⟩ ⟨true, true, ["a.cu"]⟩
    ⟨fun _ l n => l.take n, fun l _ => l, "y", fun _ => false, [], 0⟩ rfl rfl (by decide)
